import Mathlib

/-!
Verification of the analysis pipeline in `src/autolysis.py`.

The script drives a pandas `DataFrame` through a fixed sequence of stages:
`handle_missing_values` (mean imputation over the numeric columns via
`SimpleImputer`), `remove_non_numeric_columns` (`select_dtypes`),
`perform_eda` (shape / columns / dtypes / missing counts / `describe()`),
`detect_outliers` (`IsolationForest(contamination=0.05, random_state=42)`)
and `perform_clustering` (`KMeans(n_clusters=3, random_state=42)`).

Modelling conventions:
* A `Table` is the in-memory frame: a row count (the index length) and the
  ordered, named, dtype-tagged columns.  Rationals stand for Python
  ints/floats; `Cell.missing` stands for NaN/None.
* Every stage of the script wraps its body in `try/except Exception: print`,
  so nothing ever propagates to `main`.  Stages that can catch an internal
  library error return the frame together with a `Bool` that is `true`
  exactly when the `except` branch ran (an error message was printed); the
  frame component is then the frame as the stage left it.
* The seeded scikit-learn models are external collaborators.  Because both
  constructors receive `random_state=42`, each model is a fixed deterministic
  function of the numeric matrix it is fitted on; the embedding therefore
  takes that function as a parameter (`ifp` for the isolation forest's
  `fit_predict`, `km` for the k-means `fit_predict`).  The input validation
  that scikit-learn itself performs before fitting (`ValueError` on NaN
  input, `ValueError` when `n_samples < n_clusters`) is part of the
  embedding, since it decides which branch of the script runs.
* `SimpleImputer(strategy='mean')` discards columns that are entirely NaN at
  fit time, so on such input the write-back
  `df[numeric_columns] = imputer.fit_transform(df[numeric_columns])` raises a
  shape-mismatch `ValueError` (and with zero numeric columns `fit` raises on
  a 0-feature array); either way the `except` branch runs and the frame is
  left unchanged.
* `df.describe()` raises an uncaught `ValueError` on a frame without
  columns; `perform_eda` has no handler, so such a run dies there.  `main_run`
  records this as `eda = none`, `completed = false`.
* The square root in `describe()`'s `std` leaves ℚ, so the statistic is
  recorded through its square, the ddof=1 sample variance (`var1`); `none`
  plays the part of NaN entries.
-/

namespace Autolysis

/-- Pandas dtype classes relevant to the pipeline: `select_dtypes(include=[np.number])`
keeps exactly the columns whose dtype is numeric. -/
inductive Dtype where
  | numeric
  | object
deriving DecidableEq

/-- One cell of a column: a numeric value, a text value, or a missing entry (NaN). -/
inductive Cell where
  | num (q : ℚ)
  | str (s : String)
  | missing
deriving DecidableEq

/-- A named dataframe column together with its declared dtype. -/
structure Col where
  name : String
  dtype : Dtype
  cells : List Cell
deriving DecidableEq

/-- A dataframe: the length of its index and its ordered columns. -/
structure Table where
  nrows : Nat
  cols : List Col
deriving DecidableEq

/-- `df.select_dtypes(include=[np.number])`: the numeric columns in original order. -/
def numericCols (t : Table) : List Col :=
  t.cols.filter (fun c => c.dtype == Dtype.numeric)

/-- The numeric value of a cell; `none` for missing (NaN) or text cells. -/
def Cell.toQ? : Cell → Option ℚ
  | .num q => some q
  | _ => none

/-- The non-missing numeric values of a column, in order — what `mean` and
`describe` aggregate after dropping NaN. -/
def nonMissing (c : Col) : List ℚ :=
  c.cells.filterMap Cell.toQ?

/-- Replace a missing cell by `m`; leave every other cell alone. -/
def substMissing (m : ℚ) : Cell → Cell
  | .missing => .num m
  | x => x

/-- Fill the missing cells of one column with the value `m`. -/
def imputeCol (c : Col) (m : ℚ) : Col :=
  { c with cells := c.cells.map (substMissing m) }

/-- The per-column action of `SimpleImputer(strategy='mean').fit_transform` on the
numeric sub-frame, written back column by column: a numeric column gets its missing
cells replaced by the arithmetic mean of its non-missing values; other columns are
untouched. -/
def imputeIfNumeric (c : Col) : Col :=
  if c.dtype == Dtype.numeric then
    imputeCol c ((nonMissing c).sum / ((nonMissing c).length : ℚ))
  else c

/-- `handle_missing_values(df)` of `src/autolysis.py`.  The `Bool` is `true` when the
`except` branch ran (the internal `ValueError` was caught and printed): this happens
when there are no numeric columns (0-feature fit) or when some numeric column has no
non-missing value (`SimpleImputer` drops it and the write-back raises a shape
mismatch).  In both caught cases the frame is unchanged; otherwise every numeric
column is mean-imputed and the success message is printed (`false`). -/
def handle_missing_values (t : Table) : Table × Bool :=
  if (numericCols t).isEmpty then (t, true)
  else if (numericCols t).any (fun c => (nonMissing c).isEmpty) then (t, true)
  else ({ t with cols := t.cols.map imputeIfNumeric }, false)

/-- `remove_non_numeric_columns(df)`: `df.select_dtypes(include=[np.number])`,
returned (the index, and so the row count, is preserved). -/
def remove_non_numeric_columns (t : Table) : Table :=
  { t with cols := numericCols t }

/-- Linear-interpolation percentile of an ascending list of values, as
`describe()` computes quartiles; `none` on an empty list. -/
def quantile (v : List ℚ) (p : ℚ) : Option ℚ :=
  match v with
  | [] => none
  | _ =>
    let h : ℚ := p * ((v.length : ℚ) - 1)
    let i : Nat := (Rat.floor h).toNat
    let lo := v.getD i 0
    let hi := v.getD (i + 1) lo
    some (lo + (h - (i : ℚ)) * (hi - lo))

/-- The `describe()` row for one numeric column.  `count` counts the non-missing
values; `mean`, the quartiles, `min` and `max` are `none` (NaN) on an all-missing
column; `var1` is the ddof=1 sample variance, recorded in place of `std` (its
square root) so as to stay inside ℚ, and is `none` (NaN) when fewer than two
values are present. -/
structure ColStats where
  count : Nat
  mean : Option ℚ
  var1 : Option ℚ
  min : Option ℚ
  q25 : Option ℚ
  q50 : Option ℚ
  q75 : Option ℚ
  max : Option ℚ
deriving DecidableEq

/-- `Series.describe()` for a numeric column of the frame. -/
def describeCol (c : Col) : ColStats :=
  let v := (nonMissing c).mergeSort (fun a b => a ≤ b)
  let n := v.length
  { count := n
    mean := if n = 0 then none else some (v.sum / (n : ℚ))
    var1 := if n ≤ 1 then none else
      some ((v.map (fun x => (x - v.sum / (n : ℚ)) ^ 2)).sum / ((n : ℚ) - 1))
    min := v.head?
    q25 := quantile v (1 / 4)
    q50 := quantile v (1 / 2)
    q75 := quantile v (3 / 4)
    max := v.getLast? }

/-- Count of null cells of a column (`df.isnull().sum()` for that column). -/
def missingCount (c : Col) : Nat :=
  c.cells.countP (fun x => x == Cell.missing)

/-- The dict built by `perform_eda(df)`: shape, column list, dtype per column,
missing-value count per column, and `describe()` per numeric column. -/
structure EDA where
  shape : Nat × Nat
  columns : List String
  data_types : List (String × Dtype)
  missing_values : List (String × Nat)
  summary_statistics : List (String × ColStats)
deriving DecidableEq

/-- `perform_eda(df)` of `src/autolysis.py`: the returned dict.  The body only
reads the frame. -/
def perform_eda (t : Table) : EDA :=
  { shape := (t.nrows, t.cols.length)
    columns := t.cols.map Col.name
    data_types := t.cols.map (fun c => (c.name, c.dtype))
    missing_values := t.cols.map (fun c => (c.name, missingCount c))
    summary_statistics := (numericCols t).map (fun c => (c.name, describeCol c)) }

/-- The call as `main` makes it: the dict is returned, and the frame flows on to the
next stage untouched — the body of `perform_eda` contains no write to `df`. -/
def perform_eda_run (t : Table) : EDA × Table :=
  (perform_eda t, t)

/-- The numeric values of one row of the numeric sub-frame; `none` as soon as a cell
is missing (scikit-learn's `check_array` raises `ValueError` on NaN input). -/
def rowVals? : List Cell → Option (List ℚ)
  | [] => some []
  | x :: xs =>
    match Cell.toQ? x, rowVals? xs with
    | some q, some qs => some (q :: qs)
    | _, _ => none

/-- All rows of the numeric sub-frame as rational vectors, or `none` if any cell is
missing. -/
def rowsVals? : List (List Cell) → Option (List (List ℚ))
  | [] => some []
  | r :: rs =>
    match rowVals? r, rowsVals? rs with
    | some v, some vs => some (v :: vs)
    | _, _ => none

/-- The row-major numeric sub-table handed to the scikit-learn models:
row `i` holds cell `i` of each numeric column, in column order. -/
def numericMatrix? (t : Table) : Option (List (List ℚ)) :=
  rowsVals? ((List.range t.nrows).map
    (fun i => (numericCols t).map (fun c => c.cells.getD i Cell.missing)))

/-- `detect_outliers(df)` of `src/autolysis.py`.  `ifp` stands for
`IsolationForest(contamination=0.05, random_state=42).fit_predict`, a fixed
deterministic function of the fitted matrix (labels `+1`/`-1`).  If the numeric
sub-frame is empty (`DataFrame.empty`: zero rows or zero numeric columns) the stage
is skipped; if a numeric cell is missing, `fit_predict` raises and the `except`
branch leaves the frame unchanged; otherwise `df['outlier']` is appended as a new
integer (hence numeric-dtype) column. -/
def detect_outliers (ifp : List (List ℚ) → List Int) (t : Table) : Table :=
  if (numericCols t).isEmpty || t.nrows == 0 then t
  else
    match numericMatrix? t with
    | none => t
    | some X =>
      { t with cols := t.cols ++
          [⟨"outlier", Dtype.numeric, (ifp X).map (fun l => Cell.num (l : ℚ))⟩] }

/-- `perform_clustering(df)` of `src/autolysis.py`.  `km` stands for
`KMeans(n_clusters=3, random_state=42).fit_predict`, a fixed deterministic function
of the fitted matrix (labels in `[0, 3)`).  The empty-sub-frame skip and the caught
`ValueError`s (NaN input; `n_samples < n_clusters`, i.e. fewer than 3 rows) leave
the frame unchanged; otherwise `df['cluster']` is appended as a new integer
column. -/
def perform_clustering (km : List (List ℚ) → List Nat) (t : Table) : Table :=
  if (numericCols t).isEmpty || t.nrows == 0 then t
  else
    match numericMatrix? t with
    | none => t
    | some X =>
      if X.length < 3 then t
      else
        { t with cols := t.cols ++
            [⟨"cluster", Dtype.numeric, (km X).map (fun i => Cell.num (i : ℚ))⟩] }

/-- Outcome of one run of `main` after a successful load, restricted to the
analysis pipeline (directory creation, plotting, report writing and the external
text-completion call are boundary collaborators out of scope).  `imputeCaught`
records whether `handle_missing_values` printed a caught error; `eda` is `none`
when the run died inside `perform_eda` (uncaught `describe()` error on a frame
without columns), in which case no later stage ran and `completed` is `false`. -/
structure RunResult where
  imputeCaught : Bool
  eda : Option EDA
  table : Table
  completed : Bool
deriving DecidableEq

/-- The pipeline portion of `main(file_path)` after `load_csv` returned a frame:
impute, drop non-numeric columns, summarize, detect outliers, cluster. -/
def main_run (ifp : List (List ℚ) → List Int) (km : List (List ℚ) → List Nat)
    (t : Table) : RunResult :=
  let r1 := handle_missing_values t
  let t2 := remove_non_numeric_columns r1.1
  if t2.cols.isEmpty then
    { imputeCaught := r1.2, eda := none, table := t2, completed := false }
  else
    let r2 := perform_eda_run t2
    let t3 := detect_outliers ifp r2.2
    let t4 := perform_clustering km t3
    { imputeCaught := r1.2, eda := some r2.1, table := t4, completed := true }

/-! ### Model stand-ins and their contracts

The seeded scikit-learn models are fixed deterministic functions of the matrix
they are fitted on.  `KMeansContract` records the documented behaviour of
`KMeans(n_clusters=3).fit_predict` on valid input that the claims rely on: one
label per sample; labels in `[0, 3)`; and on three pairwise-distinct samples,
three singleton clusters (k-means++ never re-picks a zero-distance point while
distinct points remain, and Lloyd iteration from three distinct centres chosen
among three distinct points fixes each point to its own centre).  Concrete
stand-ins `kmModel` / `ifModel` instantiate the theorems. -/

/-- Documented behaviour of the seeded `KMeans(n_clusters=3).fit_predict` on
valid (finite, NaN-free) input. -/
structure KMeansContract (km : List (List ℚ) → List Nat) : Prop where
  length_eq : ∀ X, (km X).length = X.length
  lt_k : ∀ X, ∀ i ∈ km X, i < 3
  three_distinct : ∀ X, X.length = 3 → X.Nodup → (km X).Perm [0, 1, 2]

/-- Index of the first occurrence of `r` in a list of rows (length of the list
when absent). -/
def idxIn (r : List ℚ) : List (List ℚ) → Nat
  | [] => 0
  | x :: xs => if r = x then 0 else idxIn r xs + 1

/-- A concrete deterministic labelling satisfying `KMeansContract`, used only to
instantiate the theorems at concrete inputs. -/
def kmModel (X : List (List ℚ)) : List Nat :=
  X.map (fun r => min (idxIn r X) 2)

/-- A concrete deterministic labelling standing in for the seeded isolation
forest's `fit_predict` (every sample an inlier), used only to instantiate the
theorems at concrete inputs. -/
def ifModel (X : List (List ℚ)) : List Int :=
  X.map (fun _ => 1)

lemma kmModel_contract : KMeansContract kmModel := by
  refine ⟨?_, ?_, ?_⟩
  · intro X; simp [kmModel]
  · intro X i hi
    simp only [kmModel, List.mem_map] at hi
    obtain ⟨r, -, rfl⟩ := hi
    omega
  · intro X h3 hnd
    obtain ⟨a, b, c, rfl⟩ := List.length_eq_three.mp h3
    simp only [List.nodup_cons, List.mem_cons, List.mem_singleton,
      List.not_mem_nil, or_false, not_or] at hnd
    obtain ⟨⟨hab, hac⟩, hbc, -⟩ := hnd
    have hba : b ≠ a := Ne.symm hab
    have hca : c ≠ a := Ne.symm hac
    have hcb : c ≠ b := Ne.symm hbc
    have : kmModel [a, b, c] = [0, 1, 2] := by
      simp [kmModel, idxIn, hba, hca, hcb]
    rw [this]

/-! ### Concrete tables used as counterexample and witness inputs -/

/-- Two rows; numeric column `a` entirely missing, text column `b`. -/
def tAllMissing : Table :=
  ⟨2, [⟨"a", Dtype.numeric, [Cell.missing, Cell.missing]⟩,
       ⟨"b", Dtype.object, [Cell.str "u", Cell.str "v"]⟩]⟩

/-- Two rows, no numeric column at all. -/
def tNoNum : Table :=
  ⟨2, [⟨"b", Dtype.object, [Cell.str "u", Cell.str "v"]⟩]⟩

/-- Three rows, one fully-populated numeric column `x`. -/
def tNum3 : Table :=
  ⟨3, [⟨"x", Dtype.numeric, [Cell.num 1, Cell.num 2, Cell.num 3]⟩]⟩

/-- One row, one numeric column: fewer rows than the cluster count. -/
def tOneRow : Table :=
  ⟨1, [⟨"x", Dtype.numeric, [Cell.num 7]⟩]⟩

/-- Two rows, one numeric column: fewer rows than the cluster count. -/
def tTwoRows : Table :=
  ⟨2, [⟨"x", Dtype.numeric, [Cell.num 0, Cell.num 1]⟩]⟩

/-- Three rows, one numeric column with a missing cell. -/
def tMissRow : Table :=
  ⟨3, [⟨"x", Dtype.numeric, [Cell.num 1, Cell.missing, Cell.num 3]⟩]⟩

/-- Two rows; numeric column `a` with one missing cell, text column `b` with a
missing cell of its own. -/
def tMixed : Table :=
  ⟨2, [⟨"a", Dtype.numeric, [Cell.num 1, Cell.missing]⟩,
       ⟨"b", Dtype.object, [Cell.str "u", Cell.missing]⟩]⟩

/-! ### Helper lemmas about `handle_missing_values` -/

lemma imputeIfNumeric_name (c : Col) : (imputeIfNumeric c).name = c.name := by
  unfold imputeIfNumeric
  split <;> rfl

lemma imputeIfNumeric_dtype (c : Col) : (imputeIfNumeric c).dtype = c.dtype := by
  unfold imputeIfNumeric
  split <;> rfl

lemma handle_missing_values_caught (t : Table)
    (h : (numericCols t).isEmpty = true ∨
      (numericCols t).any (fun c => (nonMissing c).isEmpty) = true) :
    handle_missing_values t = (t, true) := by
  unfold handle_missing_values
  rcases h with h | h
  · rw [if_pos h]
  · by_cases h1 : (numericCols t).isEmpty
    · rw [if_pos h1]
    · rw [if_neg h1, if_pos h]

lemma handle_missing_values_ok (t : Table)
    (h1 : ¬ (numericCols t).isEmpty = true)
    (h2 : ¬ (numericCols t).any (fun c => (nonMissing c).isEmpty) = true) :
    handle_missing_values t = ({ t with cols := t.cols.map imputeIfNumeric }, false) := by
  unfold handle_missing_values
  rw [if_neg h1, if_neg h2]

/-- The stage either catches an internal error and leaves the frame unchanged, or
mean-imputes every numeric column; in both cases it returns normally. -/
lemma handle_missing_values_cases (t : Table) :
    handle_missing_values t = (t, true) ∨
    handle_missing_values t = ({ t with cols := t.cols.map imputeIfNumeric }, false) := by
  by_cases h1 : (numericCols t).isEmpty = true
  · exact Or.inl (handle_missing_values_caught t (Or.inl h1))
  · by_cases h2 : (numericCols t).any (fun c => (nonMissing c).isEmpty) = true
    · exact Or.inl (handle_missing_values_caught t (Or.inr h2))
    · exact Or.inr (handle_missing_values_ok t h1 h2)

lemma handle_missing_values_snd_true (t : Table)
    (h : (handle_missing_values t).2 = true) :
    handle_missing_values t = (t, true) := by
  rcases handle_missing_values_cases t with hc | hc
  · exact hc
  · rw [hc] at h
    exact absurd h (by simp)

/-! ### C1: an entirely-missing numeric column -/

/-- C1 counterexample: `tAllMissing` has a numeric column `a` whose values are all
missing, yet `handle_missing_values` completes normally — the internal
`ValueError` is caught (`true` flag, an error message is printed) and the frame
comes back unchanged.  No `ImputationError` naming the column (nor any error at
all) reaches the caller, refuting the claim that the operation "signals an
ImputationError … it does not complete as a success". -/
theorem c1_counterexample :
    handle_missing_values tAllMissing = (tAllMissing, true) := by
  decide

/-- C1 as the code has it: whenever some numeric column is entirely missing (or
there is no numeric column at all, where the 0-feature fit raises), the stage
catches the library error internally and returns normally with the table
completely unchanged — nothing is substituted, but no error is signalled to the
caller either. -/
theorem c1_impute_swallows_error (t : Table)
    (h : numericCols t = [] ∨ ∃ c ∈ numericCols t, nonMissing c = []) :
    handle_missing_values t = (t, true) := by
  apply handle_missing_values_caught
  rcases h with h | ⟨c, hc, hm⟩
  · exact Or.inl (by simp [h])
  · refine Or.inr ?_
    rw [List.any_eq_true]
    exact ⟨c, hc, by simp [hm]⟩

/-- C1 witness: the amended behaviour at a concrete table with no numeric
column. -/
theorem c1_witness : handle_missing_values tNoNum = (tNoNum, true) :=
  c1_impute_swallows_error tNoNum (Or.inl (by decide))

/-! ### C2: the orchestrator never halts -/

/-- C2 counterexample: on `tAllMissing` the imputation stage catches a hard
internal error (`imputeCaught = true`), yet the run does not transition to any
failed state: summarization still executes and produces a record, the remaining
stages run, and `main` completes without surfacing an error — refuting the claim
that "no later stage executes after such a failure". -/
theorem c2_counterexample :
    (main_run ifModel kmModel tAllMissing).imputeCaught = true ∧
    (main_run ifModel kmModel tAllMissing).eda.isSome = true ∧
    (main_run ifModel kmModel tAllMissing).completed = true := by
  decide

/-- C2 as the code has it: a hard error inside the imputation stage is caught and
printed inside that stage; provided the frame keeps at least one numeric column
the run continues through every remaining stage — summarization still produces
its record (of the unchanged, narrowed frame) and the run completes.  No
`Failed` state exists and no error is surfaced to the caller. -/
theorem c2_pipeline_never_halts (ifp : List (List ℚ) → List Int)
    (km : List (List ℚ) → List Nat) (t : Table)
    (hc : (main_run ifp km t).imputeCaught = true)
    (hn : ¬ (numericCols t).isEmpty = true) :
    (main_run ifp km t).eda = some (perform_eda (remove_non_numeric_columns t)) ∧
    (main_run ifp km t).completed = true := by
  have hflag : (main_run ifp km t).imputeCaught = (handle_missing_values t).2 := by
    unfold main_run
    dsimp only
    split <;> rfl
  rw [hflag] at hc
  have ht : handle_missing_values t = (t, true) := handle_missing_values_snd_true t hc
  have hcols : (remove_non_numeric_columns t).cols.isEmpty = false := by
    simpa [remove_non_numeric_columns] using hn
  unfold main_run
  dsimp only
  rw [ht]
  dsimp only
  rw [if_neg (by simp [hcols])]
  exact ⟨rfl, rfl⟩

/-- C2 witness: the amended behaviour at a concrete table whose numeric column is
entirely missing. -/
theorem c2_witness :
    (main_run ifModel kmModel tAllMissing).eda =
      some (perform_eda (remove_non_numeric_columns tAllMissing)) ∧
    (main_run ifModel kmModel tAllMissing).completed = true :=
  c2_pipeline_never_halts ifModel kmModel tAllMissing (by decide) (by decide)

/-! ### C4: skip on zero numeric columns -/

/-- C4: for every table with zero numeric columns, both `detect_outliers` and
`perform_clustering` skip: no outlier or cluster column is added and the table
after both operations equals the input table. -/
theorem c4_no_numeric_skip (ifp : List (List ℚ) → List Int)
    (km : List (List ℚ) → List Nat) (t : Table) (h : numericCols t = []) :
    detect_outliers ifp t = t ∧ perform_clustering km (detect_outliers ifp t) = t := by
  have hd : detect_outliers ifp t = t := by
    unfold detect_outliers; simp [h]
  refine ⟨hd, ?_⟩
  rw [hd]
  unfold perform_clustering
  simp [h]

/-- C4 witness: the skip on a concrete text-only table. -/
theorem c4_witness :
    detect_outliers ifModel tNoNum = tNoNum ∧
    perform_clustering kmModel (detect_outliers ifModel tNoNum) = tNoNum :=
  c4_no_numeric_skip ifModel kmModel tNoNum (by decide)

/-! ### Helper lemmas about the numeric matrix -/

lemma rowsVals?_length : ∀ {l : List (List Cell)} {v : List (List ℚ)},
    rowsVals? l = some v → v.length = l.length := by
  intro l
  induction l with
  | nil =>
    intro v h
    simp only [rowsVals?, Option.some.injEq] at h
    subst h
    rfl
  | cons r rs ih =>
    intro v h
    unfold rowsVals? at h
    rcases hr : rowVals? r with - | q
    · rw [hr] at h
      exact absurd h (by simp)
    · rw [hr] at h
      rcases hrs : rowsVals? rs with - | qs
      · rw [hrs] at h
        exact absurd h (by simp)
      · rw [hrs] at h
        simp only [Option.some.injEq] at h
        subst h
        simp [ih hrs]

lemma numericMatrix?_length {t : Table} {X : List (List ℚ)}
    (h : numericMatrix? t = some X) : X.length = t.nrows := by
  unfold numericMatrix? at h
  simpa using rowsVals?_length h

/-! ### C3: the sub-table clustering is fitted on -/

/-- C3 counterexample: on a concrete table with one numeric column,
`detect_outliers` appends the integer `outlier` column, so the numeric sub-table
that `perform_clustering` subsequently selects has one more column than the one
the detector was fitted on — the two stages are not fitted on the same numeric
sub-table. -/
theorem c3_counterexample :
    numericCols (detect_outliers ifModel tNum3) ≠ numericCols tNum3 := by
  decide

/-- C3 as the code has it: whenever detection actually runs (some numeric
column, at least one row, no missing numeric cell), the numeric sub-table the
clustering stage selects is the detector's numeric sub-table extended with the
appended numeric `outlier` label column. -/
theorem c3_cluster_subtable_extends_detector (ifp : List (List ℚ) → List Int)
    (t : Table) (X : List (List ℚ))
    (h0 : ¬ (numericCols t).isEmpty = true) (h1 : t.nrows ≠ 0)
    (hX : numericMatrix? t = some X) :
    numericCols (detect_outliers ifp t) =
      numericCols t ++
        [⟨"outlier", Dtype.numeric, (ifp X).map (fun l => Cell.num (l : ℚ))⟩] := by
  unfold detect_outliers
  have hg : ¬ ((numericCols t).isEmpty || t.nrows == 0) = true := by
    simp only [Bool.or_eq_true, beq_iff_eq]
    tauto
  rw [if_neg hg]
  simp only [hX]
  unfold numericCols
  simp [List.filter_append]

/-- C3 witness: the extended sub-table at a concrete table. -/
theorem c3_witness :
    numericCols (detect_outliers ifModel tNum3) =
      numericCols tNum3 ++
        [⟨"outlier", Dtype.numeric,
          (ifModel [[1], [2], [3]]).map (fun l => Cell.num (l : ℚ))⟩] :=
  c3_cluster_subtable_extends_detector ifModel tNum3 [[1], [2], [3]]
    (by decide) (by decide) (by decide)

/-! ### C6: clustering with too few rows, and with exactly k rows -/

/-- C6 counterexample: on a concrete table with 2 rows (fewer than k = 3) and one
numeric column, `perform_clustering` does not fail with any error: the internal
`ValueError` from `KMeans` is caught and printed, and the operation returns
normally with the table unchanged (no cluster column), refuting the claim that
it "fails with InvalidInputError whenever the table's row count is less than
k". -/
theorem c6_counterexample :
    perform_clustering kmModel tTwoRows = tTwoRows := by
  decide

/-- C6 as the code has it: with fewer than 3 rows the internal `KMeans` error is
caught and the frame is returned unchanged (no error is signalled); with exactly
3 rows, a numeric sub-table free of missing values and pairwise-distinct rows,
the seeded `KMeans` yields the three labels 0, 1, 2 in some order, appended as
the `cluster` column — exactly k non-empty clusters covering all rows. -/
theorem c6_clustering_bounds :
    (∀ (km : List (List ℚ) → List Nat) (t : Table),
      t.nrows < 3 → perform_clustering km t = t) ∧
    (∀ (km : List (List ℚ) → List Nat) (t : Table) (X : List (List ℚ)),
      KMeansContract km → ¬ (numericCols t).isEmpty = true → t.nrows = 3 →
      numericMatrix? t = some X → X.Nodup →
      ∃ ids : List Nat, perform_clustering km t =
          { t with cols := t.cols ++
            [⟨"cluster", Dtype.numeric, ids.map (fun i => Cell.num (i : ℚ))⟩] } ∧
        ids.Perm [0, 1, 2] ∧ ids.length = t.nrows ∧
        (∀ j < 3, j ∈ ids) ∧ (∀ i ∈ ids, i < 3)) := by
  constructor
  · intro km t hlt
    unfold perform_clustering
    by_cases hg : ((numericCols t).isEmpty || t.nrows == 0) = true
    · rw [if_pos hg]
    · rw [if_neg hg]
      rcases hX : numericMatrix? t with - | X
      · simp only [hX]
      · simp only [hX]
        have hlen : X.length = t.nrows := numericMatrix?_length hX
        rw [if_pos (by omega)]
  · intro km t X hkm h0 h3 hX hnd
    have hlen : X.length = t.nrows := numericMatrix?_length hX
    have hg : ¬ ((numericCols t).isEmpty || t.nrows == 0) = true := by
      simp only [Bool.or_eq_true, beq_iff_eq]
      push_neg
      exact ⟨by simpa using h0, by omega⟩
    refine ⟨km X, ?_, ?_, ?_, ?_, ?_⟩
    · unfold perform_clustering
      rw [if_neg hg]
      simp only [hX]
      rw [if_neg (by omega)]
    · exact hkm.three_distinct X (by omega) hnd
    · rw [hkm.length_eq, hlen]
    · intro j hj
      rw [(hkm.three_distinct X (by omega) hnd).mem_iff]
      simp only [List.mem_cons, List.mem_singleton, List.not_mem_nil, or_false]
      omega
    · exact hkm.lt_k X

/-- C6 witness: both amended behaviours at concrete tables (1 row; 3 distinct
rows). -/
theorem c6_witness :
    perform_clustering kmModel tOneRow = tOneRow ∧
    ∃ ids : List Nat, perform_clustering kmModel tNum3 =
        { tNum3 with cols := tNum3.cols ++
          [⟨"cluster", Dtype.numeric, ids.map (fun i => Cell.num (i : ℚ))⟩] } ∧
      ids.Perm [0, 1, 2] ∧ ids.length = tNum3.nrows ∧
      (∀ j < 3, j ∈ ids) ∧ (∀ i ∈ ids, i < 3) :=
  ⟨c6_clustering_bounds.1 kmModel tOneRow (by decide),
   c6_clustering_bounds.2 kmModel tNum3 [[1], [2], [3]] kmModel_contract
     (by decide) (by decide) (by decide) (by decide)⟩

/-! ### C8: one cluster id per row, in range -/

/-- C8 counterexample: `tMissRow` has one numeric column and 3 rows (at least
k), yet `perform_clustering` returns it unchanged — the NaN in the numeric
sub-table makes `KMeans` raise, the error is caught, and no cluster id at all is
produced, refuting the claim that every such table gets one cluster id per
row. -/
theorem c8_counterexample :
    perform_clustering kmModel tMissRow = tMissRow := by
  decide

/-- C8 as the code has it: for every table with at least one numeric column, at
least 3 rows and no missing value in its numeric sub-table, clustering appends a
`cluster` column holding one integer id per row, each id lying in `[0, 2]`. -/
theorem c8_cluster_ids_range (km : List (List ℚ) → List Nat) (t : Table)
    (X : List (List ℚ)) (hkm : KMeansContract km)
    (h0 : ¬ (numericCols t).isEmpty = true) (h3 : 3 ≤ t.nrows)
    (hX : numericMatrix? t = some X) :
    ∃ ids : List Nat, perform_clustering km t =
        { t with cols := t.cols ++
          [⟨"cluster", Dtype.numeric, ids.map (fun i => Cell.num (i : ℚ))⟩] } ∧
      ids.length = t.nrows ∧ (∀ i ∈ ids, i < 3) := by
  have hlen : X.length = t.nrows := numericMatrix?_length hX
  have hg : ¬ ((numericCols t).isEmpty || t.nrows == 0) = true := by
    simp only [Bool.or_eq_true, beq_iff_eq]
    push_neg
    exact ⟨by simpa using h0, by omega⟩
  refine ⟨km X, ?_, ?_, hkm.lt_k X⟩
  · unfold perform_clustering
    rw [if_neg hg]
    simp only [hX]
    rw [if_neg (by omega)]
  · rw [hkm.length_eq, hlen]

/-- C8 witness: the in-range cluster ids at a concrete 3-row table. -/
theorem c8_witness :
    ∃ ids : List Nat, perform_clustering kmModel tNum3 =
        { tNum3 with cols := tNum3.cols ++
          [⟨"cluster", Dtype.numeric, ids.map (fun i => Cell.num (i : ℚ))⟩] } ∧
      ids.length = tNum3.nrows ∧ (∀ i ∈ ids, i < 3) :=
  c8_cluster_ids_range kmModel tNum3 [[1], [2], [3]] kmModel_contract
    (by decide) (by decide) (by decide)

/-! ### C7: determinism of the seeded stages -/

/-- C7: with the seed fixed (the seeded models are the fixed functions `ifp` and
`km`), two invocations of `detect_outliers` on identical input tables produce
identical results, and likewise for `perform_clustering`: the outlier-label and
cluster-id sequences of two runs coincide. -/
theorem c7_deterministic (ifp : List (List ℚ) → List Int)
    (km : List (List ℚ) → List Nat) (t u : Table) (h : t = u) :
    detect_outliers ifp t = detect_outliers ifp u ∧
    perform_clustering km t = perform_clustering km u := by
  subst h
  exact ⟨rfl, rfl⟩

/-- C7 witness: determinism at a concrete table. -/
theorem c7_witness :
    detect_outliers ifModel tNum3 = detect_outliers ifModel tNum3 ∧
    perform_clustering kmModel tNum3 = perform_clustering kmModel tNum3 :=
  c7_deterministic ifModel kmModel tNum3 tNum3 rfl

/-! ### Helper lemmas for idempotence and column accounting -/

lemma imputeCol_imputeCol (c : Col) (m m' : ℚ) :
    imputeCol (imputeCol c m) m' = imputeCol c m := by
  unfold imputeCol
  simp only [List.map_map]
  have hfun : substMissing m' ∘ substMissing m = substMissing m := by
    funext x
    cases x <;> rfl
  rw [hfun]

lemma imputeIfNumeric_idem (c : Col) :
    imputeIfNumeric (imputeIfNumeric c) = imputeIfNumeric c := by
  by_cases h : c.dtype == Dtype.numeric
  · unfold imputeIfNumeric
    rw [if_pos h]
    rw [if_pos (show (imputeCol c _).dtype == Dtype.numeric from h)]
    exact imputeCol_imputeCol c _ _
  · unfold imputeIfNumeric
    rw [if_neg h, if_neg h]

lemma nonMissing_imputeCol_ne_nil (c : Col) (m : ℚ) (h : nonMissing c ≠ []) :
    nonMissing (imputeCol c m) ≠ [] := by
  obtain ⟨q, hq⟩ := List.exists_mem_of_ne_nil _ h
  rw [nonMissing, List.mem_filterMap] at hq
  obtain ⟨x, hx, hqx⟩ := hq
  have hxq : x = Cell.num q := by
    cases x with
    | num a => simp [Cell.toQ?] at hqx; rw [hqx]
    | str s => simp [Cell.toQ?] at hqx
    | missing => simp [Cell.toQ?] at hqx
  intro hnil
  have hmem : q ∈ nonMissing (imputeCol c m) := by
    rw [nonMissing, List.mem_filterMap]
    refine ⟨Cell.num q, ?_, rfl⟩
    show Cell.num q ∈ (c.cells.map (substMissing m))
    exact List.mem_map.mpr ⟨x, hx, by rw [hxq]; rfl⟩
  rw [hnil] at hmem
  exact absurd hmem (List.not_mem_nil q)

lemma filter_numeric_map_impute (l : List Col) :
    (l.map imputeIfNumeric).filter (fun c => c.dtype == Dtype.numeric) =
    (l.filter (fun c => c.dtype == Dtype.numeric)).map imputeIfNumeric := by
  induction l with
  | nil => rfl
  | cons a as ih =>
    simp only [List.map_cons, List.filter_cons, imputeIfNumeric_dtype]
    by_cases h : a.dtype == Dtype.numeric
    · rw [if_pos h, if_pos h, ih, List.map_cons]
    · rw [if_neg h, if_neg h, ih]

lemma numericCols_imputed (t : Table) :
    numericCols { t with cols := t.cols.map imputeIfNumeric } =
    (numericCols t).map imputeIfNumeric := by
  unfold numericCols
  exact filter_numeric_map_impute t.cols

/-! ### C5: idempotence of imputation -/

/-- C5: for every table with at least one numeric column, each numeric column
holding at least one non-missing value, running `handle_missing_values` a second
time on the already-imputed table changes nothing: the second call takes the
success path and returns the first call's table unchanged, since no missing
numeric value remains. -/
theorem c5_impute_idempotent (t : Table)
    (h1 : numericCols t ≠ [])
    (h2 : ∀ c ∈ numericCols t, nonMissing c ≠ []) :
    handle_missing_values (handle_missing_values t).1 =
      ((handle_missing_values t).1, false) := by
  have hne : ¬ (numericCols t).isEmpty = true := by simpa using h1
  have hany : ¬ (numericCols t).any (fun c => (nonMissing c).isEmpty) = true := by
    intro hcon
    obtain ⟨c, hc, hp⟩ := List.any_eq_true.mp hcon
    exact h2 c hc (by simpa using hp)
  have hfst : handle_missing_values t =
      ({ t with cols := t.cols.map imputeIfNumeric }, false) :=
    handle_missing_values_ok t hne hany
  rw [hfst]
  have hnum1 : numericCols { t with cols := t.cols.map imputeIfNumeric } =
      (numericCols t).map imputeIfNumeric := numericCols_imputed t
  have hne1 : ¬ (numericCols { t with cols := t.cols.map imputeIfNumeric }).isEmpty = true := by
    rw [hnum1]
    simpa [List.map_eq_nil_iff] using h1
  have hany1 : ¬ (numericCols { t with cols := t.cols.map imputeIfNumeric }).any
      (fun c => (nonMissing c).isEmpty) = true := by
    intro hcon
    obtain ⟨c, hc, hp⟩ := List.any_eq_true.mp hcon
    rw [hnum1, List.mem_map] at hc
    obtain ⟨c0, hc0, rfl⟩ := hc
    have hc0mem : c0 ∈ t.cols.filter (fun c => c.dtype == Dtype.numeric) := hc0
    have hc0num : (c0.dtype == Dtype.numeric) = true := by
      simpa using List.of_mem_filter hc0mem
    have hnn : nonMissing (imputeIfNumeric c0) ≠ [] := by
      unfold imputeIfNumeric
      rw [if_pos hc0num]
      exact nonMissing_imputeCol_ne_nil c0 _ (h2 c0 hc0)
    exact hnn (by simpa using hp)
  rw [handle_missing_values_ok _ hne1 hany1]
  have hcols : ({ t with cols := t.cols.map imputeIfNumeric } : Table).cols.map imputeIfNumeric
      = ({ t with cols := t.cols.map imputeIfNumeric } : Table).cols := by
    dsimp only
    rw [List.map_map]
    have hcomp : imputeIfNumeric ∘ imputeIfNumeric = imputeIfNumeric :=
      funext imputeIfNumeric_idem
    rw [hcomp]
  rw [hcols]

/-- C5 witness: idempotence at a concrete table with a numeric column and a text
column that each hold one missing cell. -/
theorem c5_witness :
    handle_missing_values (handle_missing_values tMixed).1 =
      ((handle_missing_values tMixed).1, false) :=
  c5_impute_idempotent tMixed (by decide) (by decide)

/-! ### C10: the summary describes only the numeric columns -/

/-- C10: in every run that reaches summarization, the non-numeric columns were
already dropped, so the produced record's column list, shape, dtype listing and
missing-count keys name exactly the numeric columns of the original input (whose
names and dtypes imputation preserves), never the dropped non-numeric ones. -/
theorem c10_summary_numeric_only (ifp : List (List ℚ) → List Int)
    (km : List (List ℚ) → List Nat) (t : Table)
    (h : ¬ (numericCols t).isEmpty = true) :
    (main_run ifp km t).eda.map EDA.columns = some ((numericCols t).map Col.name) ∧
    (main_run ifp km t).eda.map EDA.shape = some (t.nrows, (numericCols t).length) ∧
    (main_run ifp km t).eda.map EDA.data_types =
      some ((numericCols t).map (fun c => (c.name, c.dtype))) ∧
    (main_run ifp km t).eda.map (fun e => e.missing_values.map Prod.fst) =
      some ((numericCols t).map Col.name) := by
  rcases handle_missing_values_cases t with hc | hc
  · unfold main_run
    dsimp only
    rw [hc]
    dsimp only
    rw [if_neg (by simpa [remove_non_numeric_columns] using h)]
    refine ⟨rfl, rfl, rfl, ?_⟩
    simp only [perform_eda_run, perform_eda, remove_non_numeric_columns,
      Option.map_some', Option.some.injEq, List.map_map]
    rfl
  · unfold main_run
    dsimp only
    rw [hc]
    dsimp only
    have hnum1 : numericCols { t with cols := t.cols.map imputeIfNumeric } =
        (numericCols t).map imputeIfNumeric := numericCols_imputed t
    rw [if_neg (by
      simp only [remove_non_numeric_columns]
      rw [hnum1]
      simpa [List.map_eq_nil_iff] using h)]
    simp only [perform_eda_run, perform_eda, remove_non_numeric_columns,
      Option.map_some', Option.some.injEq, hnum1, List.map_map, List.length_map]
    refine ⟨?_, trivial, ?_, ?_⟩
    · exact List.map_congr_left (fun c _ => imputeIfNumeric_name c)
    · exact List.map_congr_left (fun c _ => by
        simp only [Function.comp_apply, imputeIfNumeric_name, imputeIfNumeric_dtype])
    · exact List.map_congr_left (fun c _ => by
        simp only [Function.comp_apply, imputeIfNumeric_name])

/-- C10 witness: the record's keys at a concrete mixed table. -/
theorem c10_witness :
    (main_run ifModel kmModel tMixed).eda.map EDA.columns =
      some ((numericCols tMixed).map Col.name) ∧
    (main_run ifModel kmModel tMixed).eda.map EDA.shape =
      some (tMixed.nrows, (numericCols tMixed).length) ∧
    (main_run ifModel kmModel tMixed).eda.map EDA.data_types =
      some ((numericCols tMixed).map (fun c => (c.name, c.dtype))) ∧
    (main_run ifModel kmModel tMixed).eda.map (fun e => e.missing_values.map Prod.fst) =
      some ((numericCols tMixed).map Col.name) :=
  c10_summary_numeric_only ifModel kmModel tMixed (by decide)

/-! ### C9: purity of the summarizer -/

/-- C9: `perform_eda` is pure and side-effect-free: the frame that flows on is
the very frame that came in, and summarizing that unchanged frame a second time
yields an identical record. -/
theorem c9_eda_pure (t : Table) :
    (perform_eda_run t).2 = t ∧
    (perform_eda_run ((perform_eda_run t).2)).1 = (perform_eda_run t).1 :=
  ⟨rfl, rfl⟩

end Autolysis
